import Mathlib

/-!
Verification of the time-accounting core of a punch-clock application.

The embedded code is `src/utils/timeUtils.ts` (functions `calculateDailyHours`,
`calculateMonthlyStats`, `groupRecordsByDay`, `minutesToReadable`) together with
the record data model from `types.ts`.

Modelling conventions:
* JS numbers are modelled as exact rationals (`ℚ`); punch timestamps (epoch
  milliseconds) as integers (`ℤ`).
* `Array.prototype.sort` with comparator `(a, b) => a.timestamp - b.timestamp`
  is a stable ascending sort by timestamp; it is modelled by `insertionSort`,
  which is stable.  The sort happens *in place*, so functions that sort the
  caller's array are also given a `...Full` variant returning the post-call
  state of that array as second component.
* JS `Date` local-time accessors (`getFullYear`/`getMonth`/`getDate`,
  `toLocaleDateString`, `toLocaleTimeString`) are modelled by a proleptic
  Gregorian civil-date conversion of `timestamp + off`, where `off` is the
  (fixed) local-timezone offset in milliseconds; theorems quantify over `off`.
  `toLocaleDateString()` used as a grouping key is modelled as the local civil
  date triple `(year, month, day)`, which the locale string renders injectively.
* The nullable slot variables `entryTime`/`breakStartTime` of
  `calculateDailyHours` are `Option ℤ`; the JS truthiness tests `if (entryTime)`
  are modelled by `truthy`, under which both `null` and the number `0` are falsy.
-/

namespace TimeClock

/-! ### Data model (`types.ts`) -/

/-- `PunchType.ENTRY = 'ENTRADA'` -/
def PunchType.ENTRY : String := "ENTRADA"

/-- `PunchType.BREAK_START = 'INÍCIO PAUSA'` -/
def PunchType.BREAK_START : String := "INÍCIO PAUSA"

/-- `PunchType.BREAK_END = 'FIM PAUSA'` -/
def PunchType.BREAK_END : String := "FIM PAUSA"

/-- `PunchType.EXIT = 'SAÍDA'` -/
def PunchType.EXIT : String := "SAÍDA"

/-- A punch record.  The `type` field is kept as a raw string because
`calculateDailyHours` takes `any[]` and switches on the string value, ignoring
unrecognized types. -/
structure PunchRecord where
  id : String
  timestamp : Int
  type : String
  note : Option String := none
deriving DecidableEq, Repr

/-- Ascending-timestamp order used by every `.sort((a, b) => a.timestamp - b.timestamp)`. -/
def recLE (a b : PunchRecord) : Prop := a.timestamp ≤ b.timestamp

instance : DecidableRel recLE := fun a b => Int.decLe a.timestamp b.timestamp

instance : IsTotal PunchRecord recLE := ⟨fun a b => Int.le_total a.timestamp b.timestamp⟩

instance : IsTrans PunchRecord recLE := ⟨fun _ _ _ h h' => le_trans h h'⟩

/-- The stable ascending sort by timestamp performed by
`records.sort((a, b) => a.timestamp - b.timestamp)`. -/
def sortRecords (records : List PunchRecord) : List PunchRecord :=
  records.insertionSort recLE

/-! ### Daily aggregator (`calculateDailyHours`) -/

/-- Result record `{ total, break }` (the `break` field is called `brk`
because `break` is a Lean keyword). -/
structure DailyResult where
  total : ℚ
  brk : ℚ
deriving DecidableEq, Repr

/-- The mutable locals of `calculateDailyHours`. -/
structure DailyState where
  totalMinutes : ℚ
  breakMinutes : ℚ
  entryTime : Option Int
  breakStartTime : Option Int
deriving DecidableEq, Repr

/-- JS truthiness of a `number | null` slot: `null` and `0` are falsy. -/
def truthy : Option Int → Bool
  | none => false
  | some t => t != 0

def initialDailyState : DailyState := ⟨0, 0, none, none⟩

/-- One iteration of the `forEach`/`switch` body of `calculateDailyHours`. -/
def dailyStep (s : DailyState) (r : PunchRecord) : DailyState :=
  if r.type = PunchType.ENTRY then
    { s with entryTime := some r.timestamp }
  else if r.type = PunchType.BREAK_START then
    let s1 := { s with breakStartTime := some r.timestamp }
    if truthy s1.entryTime then
      { s1 with
        totalMinutes := s1.totalMinutes + ((r.timestamp - s1.entryTime.getD 0 : Int) : ℚ) / 60000
        entryTime := none }
    else s1
  else if r.type = PunchType.BREAK_END then
    let s1 :=
      if truthy s.breakStartTime then
        { s with
          breakMinutes := s.breakMinutes + ((r.timestamp - s.breakStartTime.getD 0 : Int) : ℚ) / 60000
          breakStartTime := none }
      else s
    { s1 with entryTime := some r.timestamp }
  else if r.type = PunchType.EXIT then
    if truthy s.entryTime then
      { s with
        totalMinutes := s.totalMinutes + ((r.timestamp - s.entryTime.getD 0 : Int) : ℚ) / 60000
        entryTime := none }
    else s
  else s

/-- The machine state after the whole pass of `calculateDailyHours` over a
record list (records are first sorted, exactly as in the source). -/
def dailyFinalState (records : List PunchRecord) : DailyState :=
  (sortRecords records).foldl dailyStep initialDailyState

/-- `calculateDailyHours`, together with the post-call state of the caller's
array (second component): the source sorts the input array in place. -/
def calculateDailyHoursFull (records : List PunchRecord) : DailyResult × List PunchRecord :=
  if records.length = 0 then (⟨0, 0⟩, records)
  else
    let sorted := sortRecords records
    let s := sorted.foldl dailyStep initialDailyState
    (⟨s.totalMinutes, s.breakMinutes⟩, sorted)

/-- The return value of `calculateDailyHours`. -/
def calculateDailyHours (records : List PunchRecord) : DailyResult :=
  (calculateDailyHoursFull records).1

/-! ### Local calendar model (JS `Date` accessors) -/

def msPerDay : Int := 86400000

/-- Civil `(year, month 1..12, day 1..31)` from a count of days since the epoch,
proleptic Gregorian (the calendar JS `Date` implements). -/
def civilFromDays (z0 : Int) : Int × Int × Int :=
  let z := z0 + 719468
  let era := Int.fdiv z 146097
  let doe := z - era * 146097
  let yoe := Int.fdiv (doe - Int.fdiv doe 1460 + Int.fdiv doe 36524 - Int.fdiv doe 146096) 365
  let y := yoe + era * 400
  let doy := doe - (365 * yoe + Int.fdiv yoe 4 - Int.fdiv yoe 100)
  let mp := Int.fdiv (5 * doy + 2) 153
  let d := doy - Int.fdiv (153 * mp + 2) 5 + 1
  let m := if mp < 10 then mp + 3 else mp - 9
  (if m ≤ 2 then y + 1 else y, m, d)

/-- The local civil date of a timestamp, for local-timezone offset `off` (ms). -/
def localCivil (off t : Int) : Int × Int × Int :=
  civilFromDays (Int.fdiv (t + off) msPerDay)

/-- `new Date(t).getFullYear()` -/
def getFullYear (off t : Int) : Int := (localCivil off t).1

/-- `new Date(t).getMonth()` (0-based, as in JS) -/
def getMonth (off t : Int) : Int := (localCivil off t).2.1 - 1

/-- `new Date(t).getDate()` (day of month, 1-based) -/
def getDate (off t : Int) : Int := (localCivil off t).2.2

/-! ### Formatting helpers -/

/-- `String(n).padStart(2, '0')` for the small non-negative numbers formatted here. -/
def pad2 (n : Nat) : String := if n < 10 then "0" ++ toString n else toString n

/-- `new Date(t).toLocaleTimeString('pt-BR', {hour: '2-digit', minute: '2-digit'})`:
the local time of day rendered as `HH:MM` (24-hour, zero-padded). -/
def formatHHMM (off t : Int) : String :=
  let ms := (t + off).emod msPerDay
  pad2 (Int.fdiv ms 3600000).toNat ++ ":" ++ pad2 (Int.fdiv ((ms).emod 3600000) 60000).toNat

/-- `minutesToReadable`: `Math.floor` of absolute hours and leftover minutes,
with a `-` sign for negative inputs. -/
def minutesToReadable (totalMinutes : ℚ) : String :=
  let hours := ⌊|totalMinutes| / 60⌋
  let minutes := ⌊|totalMinutes| - 60 * ((⌊|totalMinutes| / 60⌋ : Int) : ℚ)⌋
  let sign := if totalMinutes < 0 then "-" else ""
  sign ++ toString hours ++ "h " ++ toString minutes ++ "m"

/-! ### Monthly aggregator (`calculateMonthlyStats`) -/

structure MonthlyStats where
  totalWorked : ℚ
  totalBreak : ℚ
  balance : ℚ
  daysWorkedCount : Nat
deriving DecidableEq, Repr

/-- The grouping key `new Date(r.timestamp).toLocaleDateString()`, modelled as the
local civil date triple (rendered injectively by the locale string). -/
def dayKey (off t : Int) : Int × Int × Int := localCivil off t

/-- `days[dayKey].push(r)` with creation on first use: append `r` to the group
with key `k`, or append a new group `(k, [r])` (JS object string keys like
`"11/10/2026"` are not integer-like, so iteration order is insertion order). -/
def insertGrouped (k : Int × Int × Int) (r : PunchRecord) :
    List ((Int × Int × Int) × List PunchRecord) → List ((Int × Int × Int) × List PunchRecord)
  | [] => [(k, [r])]
  | (k', g) :: rest =>
    if k' = k then (k', g ++ [r]) :: rest else (k', g) :: insertGrouped k r rest

/-- The `days` object of `calculateMonthlyStats`, as an ordered association list. -/
def groupByDay (off : Int) (rs : List PunchRecord) :
    List ((Int × Int × Int) × List PunchRecord) :=
  rs.foldl (fun acc r => insertGrouped (dayKey off r.timestamp) r acc) []

/-- The month filter of `calculateMonthlyStats`:
`d.getMonth() === targetMonth && d.getFullYear() === targetYear`
where the target comes from `currentMonthDate`. -/
def monthFilter (off : Int) (records : List PunchRecord) (currentMonthDate : Int) :
    List PunchRecord :=
  records.filter fun r =>
    getMonth off r.timestamp == getMonth off currentMonthDate &&
    getFullYear off r.timestamp == getFullYear off currentMonthDate

/-- The day groups `Object.values(days)` that `calculateMonthlyStats` iterates. -/
def dayGroups (off : Int) (records : List PunchRecord) (currentMonthDate : Int) :
    List (List PunchRecord) :=
  (groupByDay off (monthFilter off records currentMonthDate)).map Prod.snd

/-- The accumulation loop of `calculateMonthlyStats`:
`(totalWorked, totalBreak, daysWorkedCount)` over the day groups. -/
def monthlyAccum (acc : ℚ × ℚ × Nat) (dayRecords : List PunchRecord) : ℚ × ℚ × Nat :=
  let stats := calculateDailyHours dayRecords
  (acc.1 + stats.total, acc.2.1 + stats.brk,
    if 0 < stats.total then acc.2.2 + 1 else acc.2.2)

/-- `calculateMonthlyStats`, together with the post-call state of the caller's
array (second component): this function only `filter`s the input and pushes
into fresh per-day arrays, so the caller's array is returned unchanged. -/
def calculateMonthlyStatsFull (off : Int) (records : List PunchRecord)
    (currentMonthDate : Int) (dailyWorkload : ℚ) : MonthlyStats × List PunchRecord :=
  let acc := (dayGroups off records currentMonthDate).foldl monthlyAccum (0, 0, 0)
  ({ totalWorked := acc.1
     totalBreak := acc.2.1
     balance := acc.1 - (acc.2.2 : ℚ) * dailyWorkload
     daysWorkedCount := acc.2.2 }, records)

/-- The return value of `calculateMonthlyStats`. -/
def calculateMonthlyStats (off : Int) (records : List PunchRecord)
    (currentMonthDate : Int) (dailyWorkload : ℚ) : MonthlyStats :=
  (calculateMonthlyStatsFull off records currentMonthDate dailyWorkload).1

/-! ### Day-row reconstructor (`groupRecordsByDay`) -/

/-- JS leap-year rule (proleptic Gregorian, as `Date` implements it). -/
def isLeapYear (y : Int) : Bool := (y % 4 == 0 && y % 100 != 0) || y % 400 == 0

/-- `new Date(targetYear, targetMonth + 1, 0).getDate()`: the day count of the
month, after JS `Date` month-overflow normalization (`targetMonth` 0-based). -/
def daysInMonth (y : Int) (m : Nat) : Nat :=
  let yn : Int := y + (m / 12 : Nat)
  let mn := m % 12
  if mn = 1 then if isLeapYear yn then 29 else 28
  else if mn = 3 ∨ mn = 5 ∨ mn = 8 ∨ mn = 10 then 30
  else 31

/-- `new Date(targetYear, targetMonth, i).toLocaleDateString('pt-BR')`:
`DD/MM/YYYY` of the (normalized) civil date. -/
def formatDateFull (y : Int) (m : Nat) (i : Nat) : String :=
  pad2 i ++ "/" ++ pad2 (m % 12 + 1) ++ "/" ++ toString (y + (m / 12 : Nat))

/-- The per-day filter of `groupRecordsByDay`:
`d.getDate() === i && d.getMonth() === targetMonth && d.getFullYear() === targetYear`. -/
def dayRecordsOf (off : Int) (records : List PunchRecord) (targetMonth : Nat)
    (targetYear : Int) (i : Nat) : List PunchRecord :=
  records.filter fun r =>
    getDate off r.timestamp == (i : Int) &&
    getMonth off r.timestamp == (targetMonth : Int) &&
    getFullYear off r.timestamp == targetYear

structure DayRow where
  day : String
  dateFull : String
  entrada : String
  almocoSaida : String
  almocoVolta : String
  saida : String
  totalHoras : String
deriving DecidableEq, Repr

/-- Rendering of one `find` result: `HH:MM` when found, `''` otherwise. -/
def punchCell (off : Int) : Option PunchRecord → String
  | some r => formatHHMM off r.timestamp
  | none => ""

/-- The loop body of `groupRecordsByDay` for day `i`: the day's records are
filtered (a fresh array) and sorted, the first record of each of the four types
is looked up independently, and the daily total is computed over the same
(sorted) day array. -/
def buildDayRow (off : Int) (records : List PunchRecord) (targetMonth : Nat)
    (targetYear : Int) (i : Nat) : DayRow :=
  let dayRecords := sortRecords (dayRecordsOf off records targetMonth targetYear i)
  let entrada := dayRecords.find? fun r => r.type == PunchType.ENTRY
  let almocoSaida := dayRecords.find? fun r => r.type == PunchType.BREAK_START
  let almocoVolta := dayRecords.find? fun r => r.type == PunchType.BREAK_END
  let saida := dayRecords.find? fun r => r.type == PunchType.EXIT
  let stats := calculateDailyHours dayRecords
  { day := pad2 i
    dateFull := formatDateFull targetYear targetMonth i
    entrada := punchCell off entrada
    almocoSaida := punchCell off almocoSaida
    almocoVolta := punchCell off almocoVolta
    saida := punchCell off saida
    totalHoras := minutesToReadable stats.total }

/-- `groupRecordsByDay`, together with the post-call state of the caller's
array (second component): this function only `filter`s the input (fresh arrays
per day) and sorts those copies, so the caller's array is returned unchanged. -/
def groupRecordsByDayFull (off : Int) (records : List PunchRecord) (targetMonth : Nat)
    (targetYear : Int) : List DayRow × List PunchRecord :=
  ((List.range' 1 (daysInMonth targetYear targetMonth)).map
    (buildDayRow off records targetMonth targetYear), records)

/-- The return value of `groupRecordsByDay`. -/
def groupRecordsByDay (off : Int) (records : List PunchRecord) (targetMonth : Nat)
    (targetYear : Int) : List DayRow :=
  (groupRecordsByDayFull off records targetMonth targetYear).1

/-! ### Specification-side definitions

These are written from the spec's words (not from the source) and are compared
with the source-derived definitions above by the refinement theorems. -/

/-- Spec §4.1 state: two pending-timestamp slots, "both initially unset" —
read literally, a slot is *set* exactly when it holds a timestamp. -/
structure SpecDailyState where
  total : ℚ
  brk : ℚ
  openEntry : Option Int
  openBreak : Option Int
deriving DecidableEq, Repr

/-- The §4.1 table, read with "set" = "holds a timestamp":
* ENTRY: set `openEntry = timestamp`;
* BREAK_START: if `openEntry` set, add `(timestamp - openEntry)` to total and
  clear it; then set `openBreak = timestamp` unconditionally;
* BREAK_END: if `openBreak` set, add `(timestamp - openBreak)` to break and
  clear it; then set `openEntry = timestamp` unconditionally;
* EXIT: if `openEntry` set, add `(timestamp - openEntry)` to total and clear it.
Records of a type outside the table leave the state unchanged. -/
def specDailyStep (s : SpecDailyState) (r : PunchRecord) : SpecDailyState :=
  if r.type = PunchType.ENTRY then
    { s with openEntry := some r.timestamp }
  else if r.type = PunchType.BREAK_START then
    let s1 :=
      match s.openEntry with
      | some e =>
        { s with total := s.total + ((r.timestamp - e : Int) : ℚ) / 60000, openEntry := none }
      | none => s
    { s1 with openBreak := some r.timestamp }
  else if r.type = PunchType.BREAK_END then
    let s1 :=
      match s.openBreak with
      | some b =>
        { s with brk := s.brk + ((r.timestamp - b : Int) : ℚ) / 60000, openBreak := none }
      | none => s
    { s1 with openEntry := some r.timestamp }
  else if r.type = PunchType.EXIT then
    match s.openEntry with
    | some e =>
      { s with total := s.total + ((r.timestamp - e : Int) : ℚ) / 60000, openEntry := none }
    | none => s
  else s

/-- The daily result the §4.1 state machine prescribes (claim C1 as stated):
single pass over the records sorted ascending by timestamp, slots initially
unset. -/
def specDailyTable (records : List PunchRecord) : DailyResult :=
  let s := (sortRecords records).foldl specDailyStep ⟨0, 0, none, none⟩
  ⟨s.total, s.brk⟩

/-- Amended notion of a slot being "set": it holds a *nonzero* timestamp
(a slot holding the epoch timestamp `0` counts as unset). -/
def specSlotSet : Option Int → Bool
  | none => false
  | some t => t != 0

/-- The §4.1 table under the amended "set" convention `specSlotSet`. -/
def specDailyStepAmended (s : SpecDailyState) (r : PunchRecord) : SpecDailyState :=
  if r.type = PunchType.ENTRY then
    { s with openEntry := some r.timestamp }
  else if r.type = PunchType.BREAK_START then
    let s1 :=
      if specSlotSet s.openEntry then
        { s with
          total := s.total + ((r.timestamp - s.openEntry.getD 0 : Int) : ℚ) / 60000
          openEntry := none }
      else s
    { s1 with openBreak := some r.timestamp }
  else if r.type = PunchType.BREAK_END then
    let s1 :=
      if specSlotSet s.openBreak then
        { s with
          brk := s.brk + ((r.timestamp - s.openBreak.getD 0 : Int) : ℚ) / 60000
          openBreak := none }
      else s
    { s1 with openEntry := some r.timestamp }
  else if r.type = PunchType.EXIT then
    if specSlotSet s.openEntry then
      { s with
        total := s.total + ((r.timestamp - s.openEntry.getD 0 : Int) : ℚ) / 60000
        openEntry := none }
    else s
  else s

/-- The daily result of the §4.1 machine under the amended "set" convention. -/
def specDailyAmended (records : List PunchRecord) : DailyResult :=
  let s := (sortRecords records).foldl specDailyStepAmended ⟨0, 0, none, none⟩
  ⟨s.total, s.brk⟩

/-- Spec §4.3 cell contents: the `HH:MM` time of the earliest record of the
given type among the day's records, or `''` when the type is absent that day. -/
def specCell (off : Int) (ty : String) (dayRecords : List PunchRecord) : String :=
  match ((dayRecords.filter fun r => r.type == ty).map (fun r => r.timestamp)).min? with
  | some t => formatHHMM off t
  | none => ""

/-- The four record types the daily aggregator's `switch` recognizes. -/
def recognizedType (t : String) : Prop :=
  t = PunchType.ENTRY ∨ t = PunchType.BREAK_START ∨ t = PunchType.BREAK_END ∨ t = PunchType.EXIT

instance (t : String) : Decidable (recognizedType t) := by
  unfold recognizedType; infer_instance

/-- `DailyState` and `SpecDailyState` carry the same data; this is the evident
field-by-field translation used to compare the two state machines. -/
def toSpecState (s : DailyState) : SpecDailyState :=
  ⟨s.totalMinutes, s.breakMinutes, s.entryTime, s.breakStartTime⟩

/-! ### Helper lemmas -/

theorem calculateDailyHours_eq_fold (records : List PunchRecord) :
    calculateDailyHours records =
      ⟨(dailyFinalState records).totalMinutes, (dailyFinalState records).breakMinutes⟩ := by
  cases records with
  | nil => rfl
  | cons a l => rfl

theorem sortRecords_idem (records : List PunchRecord) :
    sortRecords (sortRecords records) = sortRecords records :=
  List.Sorted.insertionSort_eq (List.sorted_insertionSort recLE records)

theorem calculateDailyHours_sortRecords (records : List PunchRecord) :
    calculateDailyHours (sortRecords records) = calculateDailyHours records := by
  rw [calculateDailyHours_eq_fold, calculateDailyHours_eq_fold]
  unfold dailyFinalState
  rw [sortRecords_idem]

theorem dailyStep_of_not_recognized (s : DailyState) (r : PunchRecord)
    (h : ¬ recognizedType r.type) : dailyStep s r = s := by
  unfold recognizedType at h
  push_neg at h
  obtain ⟨h1, h2, h3, h4⟩ := h
  simp [dailyStep, h1, h2, h3, h4]

theorem foldl_dailyStep_of_not_recognized :
    ∀ (l : List PunchRecord) (s : DailyState), (∀ r ∈ l, ¬ recognizedType r.type) →
      l.foldl dailyStep s = s
  | [], _, _ => rfl
  | r :: l, s, h => by
    rw [List.foldl_cons, dailyStep_of_not_recognized s r (h r (List.mem_cons_self r l)),
      foldl_dailyStep_of_not_recognized l s (fun x hx => h x (List.mem_cons_of_mem r hx))]

theorem dailyStep_toSpec (s : DailyState) (r : PunchRecord) :
    toSpecState (dailyStep s r) = specDailyStepAmended (toSpecState s) r := by
  cases he : s.entryTime <;> cases hb : s.breakStartTime <;>
    simp only [dailyStep, specDailyStepAmended, toSpecState, truthy, specSlotSet, he, hb] <;>
    split_ifs <;> simp_all

theorem foldl_dailyStep_toSpec :
    ∀ (l : List PunchRecord) (s : DailyState),
      toSpecState (l.foldl dailyStep s) = l.foldl specDailyStepAmended (toSpecState s)
  | [], _ => rfl
  | r :: l, s => by
    rw [List.foldl_cons, List.foldl_cons, foldl_dailyStep_toSpec l _, dailyStep_toSpec]

/-! ### Claims -/

/-- C1 (counterexample to the claim as stated): on the punch list
`[ENTRY@0, EXIT@60000]` the source returns `{total := 0, brk := 0}` while the
§4.1 table — with "set" read literally as "holds a timestamp" — prescribes
`{total := 1, brk := 0}`: the code tests the slots by numeric truthiness, so the
stored timestamp `0` counts as unset. -/
theorem claim_daily_spec_table_counterexample :
    ¬ (calculateDailyHours
        [⟨"1", 0, PunchType.ENTRY, none⟩, ⟨"2", 60000, PunchType.EXIT, none⟩] =
      specDailyTable
        [⟨"1", 0, PunchType.ENTRY, none⟩, ⟨"2", 60000, PunchType.EXIT, none⟩]) := by
  have h1 : calculateDailyHours
      [⟨"1", 0, PunchType.ENTRY, none⟩, ⟨"2", 60000, PunchType.EXIT, none⟩] = ⟨0, 0⟩ := by
    rw [calculateDailyHours_eq_fold]
    unfold dailyFinalState sortRecords
    simp [List.insertionSort, List.orderedInsert, recLE, dailyStep, truthy,
      initialDailyState, PunchType.ENTRY, PunchType.EXIT, PunchType.BREAK_START,
      PunchType.BREAK_END]
  have h2 : specDailyTable
      [⟨"1", 0, PunchType.ENTRY, none⟩, ⟨"2", 60000, PunchType.EXIT, none⟩] = ⟨1, 0⟩ := by
    unfold specDailyTable sortRecords
    simp [List.insertionSort, List.orderedInsert, recLE, specDailyStep, PunchType.ENTRY,
      PunchType.EXIT, PunchType.BREAK_START, PunchType.BREAK_END]
  rw [h1, h2]
  intro hC
  rw [DailyResult.mk.injEq] at hC
  exact absurd hC.1 (by norm_num)

/-- C1 (amended): for every list of punch records, `computeDaily` returns
exactly the `{total, break}` of the single sorted-ascending pass described by
the §4.1 table, under the amendment that a pending slot holding timestamp `0`
is treated as *unset* (the code tests the slots by numeric truthiness). -/
theorem claim_daily_matches_spec_table (records : List PunchRecord) :
    calculateDailyHours records = specDailyAmended records := by
  rw [calculateDailyHours_eq_fold]
  simp only [specDailyAmended, dailyFinalState]
  rw [show (⟨0, 0, none, none⟩ : SpecDailyState) = toSpecState initialDailyState from rfl,
    ← foldl_dailyStep_toSpec]
  rfl

/-- C9: `computeDaily` is total over its entire input domain (it is embedded as
a total function); the empty list, and more generally any list all of whose
records have an unrecognized type, yields zero totals `{total := 0, brk := 0}`
(the empty list satisfies the hypothesis vacuously). -/
theorem claim_daily_total_function (records : List PunchRecord)
    (h : ∀ r ∈ records, ¬ recognizedType r.type) :
    calculateDailyHours records = ⟨0, 0⟩ := by
  rw [calculateDailyHours_eq_fold]
  unfold dailyFinalState
  rw [foldl_dailyStep_of_not_recognized (sortRecords records) initialDailyState
    (fun r hr => h r ((List.mem_insertionSort recLE).mp hr))]
  rfl

theorem claim_daily_total_function_witness :
    (∀ r ∈ ([⟨"x", 5, "JUNK", none⟩, ⟨"y", 3, "", none⟩] : List PunchRecord),
      ¬ recognizedType r.type) ∧
    calculateDailyHours [⟨"x", 5, "JUNK", none⟩, ⟨"y", 3, "", none⟩] = ⟨0, 0⟩ :=
  ⟨by decide, claim_daily_total_function _ (by decide)⟩

/-- C10: the implementation tests the pending slots by numeric truthiness, so a
punch at epoch timestamp `0` fills a slot that is then treated as unset:
`[ENTRY@0, EXIT@t]` yields total `0` (not the positive `t / 60000` minutes), and
`[BREAK_START@0, BREAK_END@t]` yields break `0`. -/
theorem claim_epoch_zero_unset (t : Int) (ht : 0 < t) :
    calculateDailyHours
        [⟨"1", 0, PunchType.ENTRY, none⟩, ⟨"2", t, PunchType.EXIT, none⟩] = ⟨0, 0⟩ ∧
    calculateDailyHours
        [⟨"1", 0, PunchType.BREAK_START, none⟩, ⟨"2", t, PunchType.BREAK_END, none⟩] = ⟨0, 0⟩ ∧
    (0 : ℚ) < (t : ℚ) / 60000 := by
  refine ⟨?_, ?_, div_pos (by exact_mod_cast ht) (by norm_num)⟩ <;>
  · rw [calculateDailyHours_eq_fold]
    unfold dailyFinalState sortRecords
    simp [List.insertionSort, List.orderedInsert, recLE, ht.le, dailyStep, truthy,
      initialDailyState, PunchType.ENTRY, PunchType.EXIT, PunchType.BREAK_START,
      PunchType.BREAK_END]

theorem claim_epoch_zero_unset_witness :
    (0 : Int) < 60000 ∧
    (calculateDailyHours
        [⟨"1", 0, PunchType.ENTRY, none⟩, ⟨"2", 60000, PunchType.EXIT, none⟩] = ⟨0, 0⟩ ∧
      calculateDailyHours
        [⟨"1", 0, PunchType.BREAK_START, none⟩, ⟨"2", 60000, PunchType.BREAK_END, none⟩] = ⟨0, 0⟩ ∧
      (0 : ℚ) < ((60000 : Int) : ℚ) / 60000) :=
  ⟨by decide, claim_epoch_zero_unset 60000 (by decide)⟩

/-- C6 (counterexample to the claim as stated): at `t1 = 0`, `t2 = 60000`,
`t3 = 120000` — timestamps satisfying `t1 < t2 < t3` — the day
`[ENTRY@t1, BREAK_START@t2, EXIT@t3]` does *not* yield
`total = (t2 - t1) / 60000`: the truthiness test treats the stored `0` as
unset, so the total is `0` instead of `1` minute. -/
theorem claim_open_break_lost_counterexample :
    ¬ (calculateDailyHours
        [⟨"1", 0, PunchType.ENTRY, none⟩, ⟨"2", 60000, PunchType.BREAK_START, none⟩,
          ⟨"3", 120000, PunchType.EXIT, none⟩] =
      ⟨((60000 - 0 : Int) : ℚ) / 60000, 0⟩) := by
  have h : calculateDailyHours
      [⟨"1", 0, PunchType.ENTRY, none⟩, ⟨"2", 60000, PunchType.BREAK_START, none⟩,
        ⟨"3", 120000, PunchType.EXIT, none⟩] = ⟨0, 0⟩ := by
    rw [calculateDailyHours_eq_fold]
    unfold dailyFinalState sortRecords
    simp [List.insertionSort, List.orderedInsert, recLE, dailyStep, truthy,
      initialDailyState, PunchType.ENTRY, PunchType.EXIT, PunchType.BREAK_START,
      PunchType.BREAK_END]
  rw [h]
  simp only [DailyResult.mk.injEq, not_and]
  intro h0
  norm_num at h0

/-- C6 (amended): for every `t1 < t2 < t3` with `t1 ≠ 0` (a nonzero timestamp,
so the stored slot is truthy), a day `[ENTRY@t1, BREAK_START@t2, EXIT@t3]` that
ends while the break is still open yields `total = (t2 - t1) / 60000` minutes
and `break = 0`; the EXIT handler leaves the open break slot untouched
(`breakStartTime` is still `some t2` after the pass), so the open break
duration is lost entirely. -/
theorem claim_open_break_lost (t1 t2 t3 : Int) (h0 : t1 ≠ 0) (h12 : t1 < t2) (h23 : t2 < t3) :
    calculateDailyHours
        [⟨"1", t1, PunchType.ENTRY, none⟩, ⟨"2", t2, PunchType.BREAK_START, none⟩,
          ⟨"3", t3, PunchType.EXIT, none⟩] = ⟨((t2 - t1 : Int) : ℚ) / 60000, 0⟩ ∧
    (dailyFinalState
        [⟨"1", t1, PunchType.ENTRY, none⟩, ⟨"2", t2, PunchType.BREAK_START, none⟩,
          ⟨"3", t3, PunchType.EXIT, none⟩]).breakStartTime = some t2 := by
  have hsort : sortRecords
      [⟨"1", t1, PunchType.ENTRY, none⟩, ⟨"2", t2, PunchType.BREAK_START, none⟩,
        ⟨"3", t3, PunchType.EXIT, none⟩] =
      [⟨"1", t1, PunchType.ENTRY, none⟩, ⟨"2", t2, PunchType.BREAK_START, none⟩,
        ⟨"3", t3, PunchType.EXIT, none⟩] := by
    unfold sortRecords
    simp [List.insertionSort, List.orderedInsert, recLE, h12.le, h23.le, (h12.trans h23).le]
  constructor
  · rw [calculateDailyHours_eq_fold]
    unfold dailyFinalState
    rw [hsort]
    simp [dailyStep, truthy, initialDailyState, PunchType.ENTRY, PunchType.EXIT,
      PunchType.BREAK_START, PunchType.BREAK_END, bne_iff_ne, h0]
  · unfold dailyFinalState
    rw [hsort]
    simp [dailyStep, truthy, initialDailyState, PunchType.ENTRY, PunchType.EXIT,
      PunchType.BREAK_START, PunchType.BREAK_END, bne_iff_ne, h0]

theorem insertGrouped_keyA (off : Int) (k : Int × Int × Int) (r : PunchRecord)
    (hk : dayKey off r.timestamp = k) :
    ∀ (acc : List ((Int × Int × Int) × List PunchRecord)),
      (∀ p ∈ acc, ∀ x ∈ p.2, dayKey off x.timestamp = p.1) →
      ∀ p ∈ insertGrouped k r acc, ∀ x ∈ p.2, dayKey off x.timestamp = p.1
  | [], _, p, hp, x, hx => by
    simp only [insertGrouped, List.mem_singleton] at hp
    subst hp
    simp only [List.mem_singleton] at hx
    subst hx
    exact hk
  | (k', g) :: rest, hA, p, hp, x, hx => by
    by_cases hkk : k' = k
    · rw [insertGrouped, if_pos hkk] at hp
      rcases List.mem_cons.mp hp with h1 | h1
      · subst h1
        rcases List.mem_append.mp hx with h2 | h2
        · exact hA (k', g) (List.mem_cons_self _ _) x h2
        · simp only [List.mem_singleton] at h2
          subst h2
          rw [hk]
          exact hkk.symm
      · exact hA p (List.mem_cons_of_mem _ h1) x hx
    · rw [insertGrouped, if_neg hkk] at hp
      rcases List.mem_cons.mp hp with h1 | h1
      · subst h1
        exact hA (k', g) (List.mem_cons_self _ _) x hx
      · exact insertGrouped_keyA off k r hk rest
          (fun q hq => hA q (List.mem_cons_of_mem _ hq)) p h1 x hx

theorem insertGrouped_keys_subset (k : Int × Int × Int) (r : PunchRecord) :
    ∀ (acc : List ((Int × Int × Int) × List PunchRecord)) (x : Int × Int × Int),
      x ∈ (insertGrouped k r acc).map Prod.fst → x = k ∨ x ∈ acc.map Prod.fst
  | [], x, hx => by
    simp only [insertGrouped, List.map_cons, List.map_nil, List.mem_singleton] at hx
    exact Or.inl hx
  | (k', g) :: rest, x, hx => by
    by_cases hkk : k' = k
    · rw [insertGrouped, if_pos hkk] at hx
      simp only [List.map_cons, List.mem_cons] at hx ⊢
      exact hx.elim (fun h => Or.inr (Or.inl h)) (fun h => Or.inr (Or.inr h))
    · rw [insertGrouped, if_neg hkk] at hx
      simp only [List.map_cons, List.mem_cons] at hx ⊢
      rcases hx with h | h
      · exact Or.inr (Or.inl h)
      · rcases insertGrouped_keys_subset k r rest x h with h1 | h1
        · exact Or.inl h1
        · exact Or.inr (Or.inr h1)

theorem insertGrouped_keys_nodup (k : Int × Int × Int) (r : PunchRecord) :
    ∀ (acc : List ((Int × Int × Int) × List PunchRecord)),
      (acc.map Prod.fst).Nodup → ((insertGrouped k r acc).map Prod.fst).Nodup
  | [], _ => by simp [insertGrouped]
  | (k', g) :: rest, h => by
    simp only [List.map_cons, List.nodup_cons] at h
    obtain ⟨hk', hrest⟩ := h
    by_cases hkk : k' = k
    · rw [insertGrouped, if_pos hkk]
      simp only [List.map_cons, List.nodup_cons]
      exact ⟨hk', hrest⟩
    · rw [insertGrouped, if_neg hkk]
      simp only [List.map_cons, List.nodup_cons]
      refine ⟨fun hmem => ?_, insertGrouped_keys_nodup k r rest hrest⟩
      rcases insertGrouped_keys_subset k r rest k' hmem with h1 | h1
      · exact hkk h1
      · exact hk' h1

theorem insertGrouped_self_mem (k : Int × Int × Int) (r : PunchRecord) :
    ∀ (acc : List ((Int × Int × Int) × List PunchRecord)),
      ∃ p, p ∈ insertGrouped k r acc ∧ r ∈ p.2
  | [] => ⟨(k, [r]), by simp [insertGrouped]⟩
  | (k', g) :: rest => by
    by_cases hkk : k' = k
    · exact ⟨(k', g ++ [r]), by rw [insertGrouped, if_pos hkk]; exact List.mem_cons_self _ _,
        by simp⟩
    · obtain ⟨p, hp, hr⟩ := insertGrouped_self_mem k r rest
      exact ⟨p, by rw [insertGrouped, if_neg hkk]; exact List.mem_cons_of_mem _ hp, hr⟩

theorem insertGrouped_mono (k : Int × Int × Int) (r : PunchRecord) :
    ∀ (acc : List ((Int × Int × Int) × List PunchRecord)),
      ∀ p ∈ acc, ∃ q, q ∈ insertGrouped k r acc ∧ q.1 = p.1 ∧ ∀ x ∈ p.2, x ∈ q.2
  | [], p, hp => absurd hp (List.not_mem_nil p)
  | (k', g) :: rest, p, hp => by
    by_cases hkk : k' = k
    · rcases List.mem_cons.mp hp with h1 | h1
      · subst h1
        exact ⟨(k', g ++ [r]), by rw [insertGrouped, if_pos hkk]; exact List.mem_cons_self _ _,
          rfl, fun x hx => List.mem_append_left _ hx⟩
      · exact ⟨p, by rw [insertGrouped, if_pos hkk]; exact List.mem_cons_of_mem _ h1,
          rfl, fun x hx => hx⟩
    · rcases List.mem_cons.mp hp with h1 | h1
      · subst h1
        exact ⟨(k', g), by rw [insertGrouped, if_neg hkk]; exact List.mem_cons_self _ _,
          rfl, fun x hx => hx⟩
      · obtain ⟨q, hq, hqk, hsub⟩ := insertGrouped_mono k r rest p h1
        exact ⟨q, by rw [insertGrouped, if_neg hkk]; exact List.mem_cons_of_mem _ hq, hqk, hsub⟩

theorem groupByDay_fold_invariant (off : Int) :
    ∀ (rs : List PunchRecord) (acc : List ((Int × Int × Int) × List PunchRecord)),
      (∀ p ∈ acc, ∀ x ∈ p.2, dayKey off x.timestamp = p.1) →
      (acc.map Prod.fst).Nodup →
      (∀ p ∈ rs.foldl (fun a x => insertGrouped (dayKey off x.timestamp) x a) acc,
          ∀ x ∈ p.2, dayKey off x.timestamp = p.1) ∧
      ((rs.foldl (fun a x => insertGrouped (dayKey off x.timestamp) x a) acc).map
          Prod.fst).Nodup ∧
      (∀ r ∈ rs, ∃ p, p ∈ rs.foldl (fun a x => insertGrouped (dayKey off x.timestamp) x a) acc ∧
          r ∈ p.2) ∧
      (∀ p ∈ acc, ∃ q,
          q ∈ rs.foldl (fun a x => insertGrouped (dayKey off x.timestamp) x a) acc ∧
          q.1 = p.1 ∧ ∀ x ∈ p.2, x ∈ q.2)
  | [], acc, hA, hB => ⟨hA, hB, by simp, fun p hp => ⟨p, hp, rfl, fun x hx => hx⟩⟩
  | r :: rs, acc, hA, hB => by
    have hA' := insertGrouped_keyA off (dayKey off r.timestamp) r rfl acc hA
    have hB' := insertGrouped_keys_nodup (dayKey off r.timestamp) r acc hB
    obtain ⟨ihA, ihB, ihCov, ihMono⟩ := groupByDay_fold_invariant off rs
      (insertGrouped (dayKey off r.timestamp) r acc) hA' hB'
    rw [List.foldl_cons]
    refine ⟨ihA, ihB, ?_, ?_⟩
    · intro x hx
      rcases List.mem_cons.mp hx with h1 | h1
      · subst h1
        obtain ⟨p, hp, hr⟩ := insertGrouped_self_mem (dayKey off x.timestamp) x acc
        obtain ⟨q, hq, _, hsub⟩ := ihMono p hp
        exact ⟨q, hq, hsub x hr⟩
      · exact ihCov x h1
    · intro p hp
      obtain ⟨q', hq', hq'k, hsub'⟩ := insertGrouped_mono (dayKey off r.timestamp) r acc p hp
      obtain ⟨q, hq, hqk, hsub⟩ := ihMono q' hq'
      exact ⟨q, hq, hqk.trans hq'k, fun x hx => hsub x (hsub' x hx)⟩

theorem nodup_fst_eq {α β : Type} :
    ∀ (l : List (α × β)), (l.map Prod.fst).Nodup →
      ∀ p ∈ l, ∀ q ∈ l, p.1 = q.1 → p = q
  | [], _, p, hp, _, _, _ => absurd hp (List.not_mem_nil p)
  | a :: l, h, p, hp, q, hq, hpq => by
    simp only [List.map_cons, List.nodup_cons] at h
    obtain ⟨ha, hl⟩ := h
    rcases List.mem_cons.mp hp with h1 | h1 <;> rcases List.mem_cons.mp hq with h2 | h2
    · rw [h1, h2]
    · subst h1
      exact absurd (hpq ▸ List.mem_map_of_mem Prod.fst h2) ha
    · subst h2
      exact absurd (hpq ▸ List.mem_map_of_mem Prod.fst h1) ha
    · exact nodup_fst_eq l hl p h1 q h2 hpq

/-- C3: in the monthly aggregation, the day-grouping key has local-calendar-date
granularity: every filtered record lands in some group, and two records (in
their groups) share a group *iff* their timestamps fall on the same local
calendar day — so a record at 23:59 and one at 00:01 of the next local day are
never merged, while two records of the same local day always are. -/
theorem claim_month_grouping_local_day (off : Int) (records : List PunchRecord)
    (currentMonthDate : Int) :
    (∀ r ∈ monthFilter off records currentMonthDate,
        ∃ p, p ∈ groupByDay off (monthFilter off records currentMonthDate) ∧ r ∈ p.2) ∧
    (∀ p ∈ groupByDay off (monthFilter off records currentMonthDate),
      ∀ q ∈ groupByDay off (monthFilter off records currentMonthDate),
      ∀ r1 ∈ p.2, ∀ r2 ∈ q.2,
        (localCivil off r1.timestamp = localCivil off r2.timestamp ↔ p = q)) := by
  obtain ⟨hA, hB, hcov, _⟩ := groupByDay_fold_invariant off
    (monthFilter off records currentMonthDate) [] (by simp) (by simp)
  refine ⟨hcov, ?_⟩
  intro p hp q hq r1 h1 r2 h2
  constructor
  · intro hkey
    have hp1 : dayKey off r1.timestamp = p.1 := hA p hp r1 h1
    have hq1 : dayKey off r2.timestamp = q.1 := hA q hq r2 h2
    exact nodup_fst_eq _ hB p hp q hq (by rw [← hp1, ← hq1]; exact hkey)
  · intro hpq
    subst hpq
    have hp1 : dayKey off r1.timestamp = p.1 := hA p hp r1 h1
    have hq1 : dayKey off r2.timestamp = p.1 := hA p hp r2 h2
    show dayKey off r1.timestamp = dayKey off r2.timestamp
    rw [hp1, hq1]

theorem claim_month_grouping_local_day_witness :
    ((((1970, 1, 1) : Int × Int × Int), [(⟨"a", 86340000, "ENTRADA", none⟩ : PunchRecord)]) ∈
        groupByDay 0 (monthFilter 0
          [⟨"a", 86340000, "ENTRADA", none⟩, ⟨"b", 86460000, "ENTRADA", none⟩] 0)) ∧
    ((((1970, 1, 2) : Int × Int × Int), [(⟨"b", 86460000, "ENTRADA", none⟩ : PunchRecord)]) ∈
        groupByDay 0 (monthFilter 0
          [⟨"a", 86340000, "ENTRADA", none⟩, ⟨"b", 86460000, "ENTRADA", none⟩] 0)) ∧
    ((⟨"a", 86340000, "ENTRADA", none⟩ : PunchRecord) ∈
        [(⟨"a", 86340000, "ENTRADA", none⟩ : PunchRecord)]) ∧
    ((⟨"b", 86460000, "ENTRADA", none⟩ : PunchRecord) ∈
        [(⟨"b", 86460000, "ENTRADA", none⟩ : PunchRecord)]) ∧
    (localCivil 0 (86340000 : Int) = localCivil 0 (86460000 : Int) ↔
      ((((1970, 1, 1) : Int × Int × Int), [(⟨"a", 86340000, "ENTRADA", none⟩ : PunchRecord)]) =
        (((1970, 1, 2) : Int × Int × Int), [(⟨"b", 86460000, "ENTRADA", none⟩ : PunchRecord)]))) :=
  ⟨by decide, by decide, by decide, by decide,
    (claim_month_grouping_local_day 0
        [⟨"a", 86340000, "ENTRADA", none⟩, ⟨"b", 86460000, "ENTRADA", none⟩] 0).2
      (((1970, 1, 1), [⟨"a", 86340000, "ENTRADA", none⟩])) (by decide)
      (((1970, 1, 2), [⟨"b", 86460000, "ENTRADA", none⟩])) (by decide)
      ⟨"a", 86340000, "ENTRADA", none⟩ (by decide)
      ⟨"b", 86460000, "ENTRADA", none⟩ (by decide)⟩

/-- C7: each of the three aggregators, called twice in succession on the same
input value, yields identical output both times.  The call is modelled with its
effect on the caller's array (`...Full`): the second call receives the array as
the first call left it (sorted in place for `computeDaily`, untouched for the
other two), and still returns the same result. -/
theorem claim_aggregators_idempotent (off : Int) (records : List PunchRecord)
    (currentMonthDate : Int) (dailyWorkload : ℚ) (targetMonth : Nat) (targetYear : Int) :
    (calculateDailyHoursFull ((calculateDailyHoursFull records).2)).1 =
      (calculateDailyHoursFull records).1 ∧
    (calculateMonthlyStatsFull off
        ((calculateMonthlyStatsFull off records currentMonthDate dailyWorkload).2)
        currentMonthDate dailyWorkload).1 =
      (calculateMonthlyStatsFull off records currentMonthDate dailyWorkload).1 ∧
    (groupRecordsByDayFull off ((groupRecordsByDayFull off records targetMonth targetYear).2)
        targetMonth targetYear).1 =
      (groupRecordsByDayFull off records targetMonth targetYear).1 := by
  refine ⟨?_, rfl, rfl⟩
  cases records with
  | nil => rfl
  | cons a l =>
    have hpost : (calculateDailyHoursFull (a :: l)).2 = sortRecords (a :: l) := by
      simp [calculateDailyHoursFull]
    rw [hpost]
    exact calculateDailyHours_sortRecords (a :: l)

/-- C8 (counterexample to the claim as stated): `computeDaily` sorts the
caller's array *in place* (`records.sort(...)` on line 33), so on the unsorted
input `[ENTRY@1, ENTRY@0]` the caller's array is reordered by the call. -/
theorem claim_input_preservation_counterexample :
    ¬ ((calculateDailyHoursFull
        [⟨"b", 1, PunchType.ENTRY, none⟩, ⟨"a", 0, PunchType.ENTRY, none⟩]).2 =
      [⟨"b", 1, PunchType.ENTRY, none⟩, ⟨"a", 0, PunchType.ENTRY, none⟩]) := by
  decide

/-- C8 (amended): no aggregator adds, removes or modifies any record of the
caller's collection — but `computeDaily` sorts the caller's array in place, so
that array is afterwards a (sorted) permutation of its previous contents,
rather than literally unchanged; `computeMonthly` and `buildMonthRows` only
`filter` the input into fresh arrays and leave the caller's array unchanged. -/
theorem claim_input_preservation (off : Int) (records : List PunchRecord)
    (currentMonthDate : Int) (dailyWorkload : ℚ) (targetMonth : Nat) (targetYear : Int) :
    ((calculateDailyHoursFull records).2).Perm records ∧
    (calculateMonthlyStatsFull off records currentMonthDate dailyWorkload).2 = records ∧
    (groupRecordsByDayFull off records targetMonth targetYear).2 = records := by
  refine ⟨?_, rfl, rfl⟩
  cases records with
  | nil => exact List.Perm.refl _
  | cons a l =>
    have hpost : (calculateDailyHoursFull (a :: l)).2 = sortRecords (a :: l) := by
      simp [calculateDailyHoursFull]
    rw [hpost]
    exact List.perm_insertionSort recLE (a :: l)

theorem daysInMonth_bounds (y : Int) (m : Nat) :
    28 ≤ daysInMonth y m ∧ daysInMonth y m ≤ 31 := by
  unfold daysInMonth
  dsimp only
  split_ifs <;> exact ⟨by omega, by omega⟩

/-- C4: for every record collection (including the empty one) and every target
month and year, `buildMonthRows` returns exactly `daysInMonth` rows (a count
between 28 and 31), one per calendar day, with the `day` column running
ascending through `01 .. daysInMonth`. -/
theorem claim_month_rows_shape (off : Int) (records : List PunchRecord)
    (targetMonth : Nat) (targetYear : Int) :
    (groupRecordsByDay off records targetMonth targetYear).length =
        daysInMonth targetYear targetMonth ∧
    (groupRecordsByDay off records targetMonth targetYear).map (fun row => row.day) =
        (List.range' 1 (daysInMonth targetYear targetMonth)).map pad2 ∧
    28 ≤ daysInMonth targetYear targetMonth ∧ daysInMonth targetYear targetMonth ≤ 31 := by
  refine ⟨?_, ?_, daysInMonth_bounds targetYear targetMonth⟩
  · simp [groupRecordsByDay, groupRecordsByDayFull]
  · rw [groupRecordsByDay, groupRecordsByDayFull, List.map_map]
    exact List.map_congr_left fun i _ => rfl

theorem foldl_monthlyAccum :
    ∀ (gs : List (List PunchRecord)) (a : ℚ × ℚ × Nat),
      gs.foldl monthlyAccum a =
        (a.1 + (gs.map fun g => (calculateDailyHours g).total).sum,
         a.2.1 + (gs.map fun g => (calculateDailyHours g).brk).sum,
         a.2.2 + (gs.filter fun g => decide (0 < (calculateDailyHours g).total)).length)
  | [], a => by simp
  | g :: gs, a => by
    rw [List.foldl_cons, foldl_monthlyAccum gs _]
    simp only [monthlyAccum, List.map_cons, List.sum_cons, List.filter_cons]
    refine Prod.ext (by simp; ring) (Prod.ext (by simp; ring) ?_)
    by_cases h : 0 < (calculateDailyHours g).total <;> · simp [h]; try omega

/-- C2: `computeMonthly` filters the records to the target local month and
year, groups them by local calendar day, runs the daily aggregator per group,
sums the per-day results into `totalWorked`/`totalBreak`, counts
`daysWorkedCount` exactly over the groups whose daily total is strictly
positive (a day with only unmatched punches is not counted), and returns
`balance = totalWorked − daysWorkedCount × dailyTarget` — so a day with no
worked time contributes nothing (negative) to the balance. -/
theorem claim_monthly_stats_spec (off : Int) (records : List PunchRecord)
    (currentMonthDate : Int) (dailyWorkload : ℚ) :
    calculateMonthlyStats off records currentMonthDate dailyWorkload =
      { totalWorked := ((dayGroups off records currentMonthDate).map
          fun g => (calculateDailyHours g).total).sum
        totalBreak := ((dayGroups off records currentMonthDate).map
          fun g => (calculateDailyHours g).brk).sum
        balance := ((dayGroups off records currentMonthDate).map
            fun g => (calculateDailyHours g).total).sum -
          (((dayGroups off records currentMonthDate).filter
            fun g => decide (0 < (calculateDailyHours g).total)).length : ℚ) * dailyWorkload
        daysWorkedCount := ((dayGroups off records currentMonthDate).filter
          fun g => decide (0 < (calculateDailyHours g).total)).length } := by
  unfold calculateMonthlyStats calculateMonthlyStatsFull
  rw [foldl_monthlyAccum]
  simp

instance : Std.Antisymm (fun (a b : Int) => a ≤ b) := ⟨fun h h' => le_antisymm h h'⟩

theorem int_min?_eq_some_iff {xs : List Int} {a : Int} :
    xs.min? = some a ↔ a ∈ xs ∧ ∀ b ∈ xs, a ≤ b :=
  List.min?_eq_some_iff (fun x => le_refl x) (fun x y => min_choice x y)
    (fun _ _ _ => le_min_iff)

theorem min?_eq_of_perm {xs ys : List Int} (h : xs.Perm ys) : xs.min? = ys.min? := by
  cases hx : xs.min? with
  | none =>
    rw [List.min?_eq_none_iff] at hx
    subst hx
    have hy : ys = [] := h.symm.eq_nil
    rw [hy]
    rfl
  | some a =>
    rw [int_min?_eq_some_iff] at hx
    symm
    rw [int_min?_eq_some_iff]
    exact ⟨h.mem_iff.mp hx.1, fun b hb => hx.2 b (h.mem_iff.mpr hb)⟩

theorem find?_eq_head?_of_filter (p : PunchRecord → Bool) :
    ∀ l : List PunchRecord, l.find? p = (l.filter p).head?
  | [] => rfl
  | a :: l => by
    rw [List.find?_cons, List.filter_cons]
    cases h : p a
    · simp only [Bool.false_eq_true, if_false]
      exact find?_eq_head?_of_filter p l
    · simp

theorem foldl_min_of_le : ∀ (xs : List Int) (x : Int), (∀ b ∈ xs, x ≤ b) → xs.foldl min x = x
  | [], _, _ => rfl
  | b :: xs, x, h => by
    rw [List.foldl_cons, min_eq_left (h b (List.mem_cons_self b xs))]
    exact foldl_min_of_le xs x fun c hc => h c (List.mem_cons_of_mem b hc)

theorem sorted_min?_eq_head? :
    ∀ (xs : List Int), xs.Sorted (fun a b => a ≤ b) → xs.min? = xs.head?
  | [], _ => rfl
  | x :: xs, h => by
    show some (xs.foldl min x) = some x
    rw [foldl_min_of_le xs x (List.rel_of_sorted_cons h)]

theorem sorted_map_timestamp {l : List PunchRecord} (h : l.Sorted recLE) :
    (l.map fun r => r.timestamp).Sorted (fun a b => a ≤ b) :=
  List.pairwise_map.mpr h

theorem find?_type_timestamp (ty : String) (l : List PunchRecord) :
    (((sortRecords l).find? fun r => r.type == ty).map fun r => r.timestamp) =
      ((l.filter fun r => r.type == ty).map fun r => r.timestamp).min? := by
  rw [find?_eq_head?_of_filter, ← List.head?_map]
  have hsorted : ((sortRecords l).filter fun r => r.type == ty).Sorted recLE :=
    (List.sorted_insertionSort recLE l).filter _
  have hperm : ((sortRecords l).filter fun r => r.type == ty).Perm
      (l.filter fun r => r.type == ty) :=
    (List.perm_insertionSort recLE l).filter _
  rw [← sorted_min?_eq_head? _ (sorted_map_timestamp hsorted)]
  exact min?_eq_of_perm (hperm.map _)

theorem punchCell_eq_specCell (off : Int) (ty : String) (l : List PunchRecord) :
    punchCell off ((sortRecords l).find? fun r => r.type == ty) = specCell off ty l := by
  have h := find?_type_timestamp ty l
  cases hf : (sortRecords l).find? fun r => r.type == ty with
  | none =>
    rw [hf] at h
    simp only [Option.map_none'] at h
    simp [punchCell, specCell, ← h]
  | some r =>
    rw [hf] at h
    simp only [Option.map_some'] at h
    simp [punchCell, specCell, ← h]

theorem buildDayRow_cells (off : Int) (records : List PunchRecord) (targetMonth : Nat)
    (targetYear : Int) (i : Nat) :
    (buildDayRow off records targetMonth targetYear i).entrada =
        specCell off PunchType.ENTRY (dayRecordsOf off records targetMonth targetYear i) ∧
    (buildDayRow off records targetMonth targetYear i).almocoSaida =
        specCell off PunchType.BREAK_START (dayRecordsOf off records targetMonth targetYear i) ∧
    (buildDayRow off records targetMonth targetYear i).almocoVolta =
        specCell off PunchType.BREAK_END (dayRecordsOf off records targetMonth targetYear i) ∧
    (buildDayRow off records targetMonth targetYear i).saida =
        specCell off PunchType.EXIT (dayRecordsOf off records targetMonth targetYear i) ∧
    (buildDayRow off records targetMonth targetYear i).totalHoras =
        minutesToReadable
          (calculateDailyHours (dayRecordsOf off records targetMonth targetYear i)).total := by
  refine ⟨punchCell_eq_specCell off _ _, punchCell_eq_specCell off _ _,
    punchCell_eq_specCell off _ _, punchCell_eq_specCell off _ _, ?_⟩
  show minutesToReadable
      (calculateDailyHours (sortRecords (dayRecordsOf off records targetMonth targetYear i))).total =
    minutesToReadable (calculateDailyHours (dayRecordsOf off records targetMonth targetYear i)).total
  rw [calculateDailyHours_sortRecords]

/-- C5: in every row built by `buildMonthRows`, each of the four punch cells
(`entrada`, `almocoSaida`, `almocoVolta`, `saida`) holds the `HH:MM` time of the
earliest record of the corresponding type on that local calendar day — the four
lookups independent, later duplicates ignored for display — or the empty string
when the type is absent; and `totalHoras` is the day's daily-aggregator total
formatted by `minutesToReadable`, even when duplicates make the cells
inconsistent with that total. -/
theorem claim_day_row_cells (off : Int) (records : List PunchRecord) (targetMonth : Nat)
    (targetYear : Int) (i : Nat)
    (h : i < (groupRecordsByDay off records targetMonth targetYear).length) :
    ((groupRecordsByDay off records targetMonth targetYear).get ⟨i, h⟩).entrada =
        specCell off PunchType.ENTRY (dayRecordsOf off records targetMonth targetYear (1 + i)) ∧
    ((groupRecordsByDay off records targetMonth targetYear).get ⟨i, h⟩).almocoSaida =
        specCell off PunchType.BREAK_START
          (dayRecordsOf off records targetMonth targetYear (1 + i)) ∧
    ((groupRecordsByDay off records targetMonth targetYear).get ⟨i, h⟩).almocoVolta =
        specCell off PunchType.BREAK_END
          (dayRecordsOf off records targetMonth targetYear (1 + i)) ∧
    ((groupRecordsByDay off records targetMonth targetYear).get ⟨i, h⟩).saida =
        specCell off PunchType.EXIT (dayRecordsOf off records targetMonth targetYear (1 + i)) ∧
    ((groupRecordsByDay off records targetMonth targetYear).get ⟨i, h⟩).totalHoras =
        minutesToReadable
          (calculateDailyHours
            (dayRecordsOf off records targetMonth targetYear (1 + i))).total := by
  have hget : (groupRecordsByDay off records targetMonth targetYear).get ⟨i, h⟩ =
      buildDayRow off records targetMonth targetYear (1 + i) := by
    rw [List.get_eq_getElem]
    simp only [groupRecordsByDay, groupRecordsByDayFull, List.getElem_map,
      List.getElem_range', one_mul]
  rw [hget]
  exact buildDayRow_cells off records targetMonth targetYear (1 + i)

theorem claim_day_row_cells_witness :
    0 < (groupRecordsByDay 0 [] 0 1970).length ∧
    (((groupRecordsByDay 0 [] 0 1970).get
        ⟨0, Nat.lt_of_lt_of_le (by decide)
          (le_of_eq (by decide : (31 : Nat) = (groupRecordsByDay 0 [] 0 1970).length))⟩).entrada =
        specCell 0 PunchType.ENTRY (dayRecordsOf 0 [] 0 1970 (1 + 0)) ∧
      ((groupRecordsByDay 0 [] 0 1970).get
        ⟨0, Nat.lt_of_lt_of_le (by decide)
          (le_of_eq (by decide : (31 : Nat) = (groupRecordsByDay 0 [] 0 1970).length))⟩).almocoSaida =
        specCell 0 PunchType.BREAK_START (dayRecordsOf 0 [] 0 1970 (1 + 0)) ∧
      ((groupRecordsByDay 0 [] 0 1970).get
        ⟨0, Nat.lt_of_lt_of_le (by decide)
          (le_of_eq (by decide : (31 : Nat) = (groupRecordsByDay 0 [] 0 1970).length))⟩).almocoVolta =
        specCell 0 PunchType.BREAK_END (dayRecordsOf 0 [] 0 1970 (1 + 0)) ∧
      ((groupRecordsByDay 0 [] 0 1970).get
        ⟨0, Nat.lt_of_lt_of_le (by decide)
          (le_of_eq (by decide : (31 : Nat) = (groupRecordsByDay 0 [] 0 1970).length))⟩).saida =
        specCell 0 PunchType.EXIT (dayRecordsOf 0 [] 0 1970 (1 + 0)) ∧
      ((groupRecordsByDay 0 [] 0 1970).get
        ⟨0, Nat.lt_of_lt_of_le (by decide)
          (le_of_eq (by decide : (31 : Nat) = (groupRecordsByDay 0 [] 0 1970).length))⟩).totalHoras =
        minutesToReadable (calculateDailyHours (dayRecordsOf 0 [] 0 1970 (1 + 0))).total) :=
  ⟨Nat.lt_of_lt_of_le (by decide)
      (le_of_eq (by decide : (31 : Nat) = (groupRecordsByDay 0 [] 0 1970).length)),
    claim_day_row_cells 0 [] 0 1970 0 _⟩

theorem claim_open_break_lost_witness :
    (60000 : Int) ≠ 0 ∧ (60000 : Int) < 120000 ∧ (120000 : Int) < 180000 ∧
    (calculateDailyHours
        [⟨"1", 60000, PunchType.ENTRY, none⟩, ⟨"2", 120000, PunchType.BREAK_START, none⟩,
          ⟨"3", 180000, PunchType.EXIT, none⟩] = ⟨((120000 - 60000 : Int) : ℚ) / 60000, 0⟩ ∧
      (dailyFinalState
        [⟨"1", 60000, PunchType.ENTRY, none⟩, ⟨"2", 120000, PunchType.BREAK_START, none⟩,
          ⟨"3", 180000, PunchType.EXIT, none⟩]).breakStartTime = some 120000) :=
  ⟨by decide, by decide, by decide,
    claim_open_break_lost 60000 120000 180000 (by decide) (by decide) (by decide)⟩

end TimeClock
